import Mathlib

/-!
Verification of the worker-pool webserver (src/src/main.rs).

The development has two layers:

* a structural layer that embeds the data types and the pure effect of each
  `ThreadPool` method (`new`, `submit`, `shutdown`, `Drop::drop`), of the
  request handler `handle_connection`, and of the SIGINT handler `on_sigint`;
* an operational layer (`Sys`, `Step`) that models the concurrent execution
  of the worker threads and of the thread calling `shutdown`: the channel is
  a FIFO queue of `Message`s, each worker repeatedly dequeues the head
  message while it is in its `running` state, and the shutdown caller joins
  the workers in order and returns only after joining all of them.

Machine integers of the source (`u16` worker ids, `usize` lengths) are
represented as `Nat`; no arithmetic in the source can overflow its type for
valid inputs, so no modular reduction is needed.
-/

/-- A submitted job (`type Job = Box<dyn FnOnce() + Send + 'static>`).
The pool treats jobs as opaque single-shot closures; we give each an
identity and record the one observable event of running it: either it
returns normally or it panics (`panics = true`). -/
structure Job where
  id : Nat
  panics : Bool
deriving DecidableEq

/-- Embedding of `enum Message { NewJob(Job), Terminate }` (main.rs 82-85). -/
inductive Message where
  | NewJob (job : Job)
  | Terminate
deriving DecidableEq

/-- The mpsc sender endpoint, as seen by a producer: the queued messages and
whether every consumer handle has been dropped (`closed = true` makes
`send` return `Err`, mirroring `std::sync::mpsc::SendError`). -/
structure Channel where
  msgs : List Message
  closed : Bool
deriving DecidableEq

/-- Error of `mpsc::Sender::send`: all receivers were dropped. -/
inductive SendError where
  | disconnected
deriving DecidableEq

/-- Embedding of `mpsc::Sender::send`: enqueue at the tail and succeed, or
fail with `SendError` when the channel is closed; it never blocks. -/
def Channel.send (c : Channel) (m : Message) : Channel × Except SendError Unit :=
  if c.closed then (c, Except.error SendError.disconnected)
  else ({ c with msgs := c.msgs ++ [m] }, Except.ok ())

/-- Embedding of `struct Worker { id: u16, joinHandle: Option<JoinHandle<()>> }`
(main.rs 142-145), together with the `Arc<Mutex<Receiver>>` clone the worker
was given; `receiver` is the identity of that shared consumer endpoint and
`joinHandle = some ()` means the spawned thread's handle has not yet been
taken by a join. -/
structure Worker where
  id : Nat
  receiver : Nat
  joinHandle : Option Unit
deriving DecidableEq

/-- Embedding of `Worker::new` (main.rs 148-168): spawns the worker thread
(hence a fresh, present join handle) over the shared receiver clone. -/
def Worker.new (id : Nat) (receiver : Nat) : Worker :=
  { id := id, receiver := receiver, joinHandle := some () }

/-- Embedding of `struct ThreadPool` (main.rs 87-90); the sender endpoint is
modelled separately as a `Channel` argument where a claim needs it. -/
structure ThreadPool where
  workers : List Worker
deriving DecidableEq

/-- Embedding of `ThreadPool::new` (main.rs 98-112).  `assert!(nthreads > 0)`
runs before anything else, so a zero size aborts construction (`none`)
before any thread is spawned; otherwise one channel is created (receiver
identity `0`) and workers with ids `0..nthreads` are pushed in order. -/
def ThreadPool.new (nthreads : Nat) : Option ThreadPool :=
  if nthreads > 0 then
    some { workers := (List.range nthreads).map fun id => Worker.new id 0 }
  else
    none

/-- Embedding of `ThreadPool::submit` (main.rs 114-119).  The source is the
single statement `self.sender.send(Message::NewJob(Box::new(request)));`,
whose `Result` is dropped: only the channel state survives, and neither an
`Err` from `send` nor the job itself is surfaced to the caller. -/
def ThreadPool.submit (c : Channel) (j : Job) : Channel :=
  (c.send (Message.NewJob j)).1

/-- Embedding of `ThreadPool::shutdown` (main.rs 121-133) on an open
channel, the only case a first shutdown of a live pool can meet (the pool
holds the sender and the workers hold receiver clones, so the sends cannot
fail there).  The first loop sends one `Terminate` per element of `workers`
(`for _ in 0..self.workers.len()`); the second loop takes each worker's
join handle and joins it only when the handle was still present.  Returns
the pool afterwards, the list of messages sent, and the ids of the workers
actually joined, in order.  `ThreadPool.shutdownRun` below is the
channel-aware embedding that also covers the `.unwrap()` panic path of the
sends on a disconnected channel. -/
def ThreadPool.shutdown (p : ThreadPool) : ThreadPool × List Message × List Nat :=
  (⟨p.workers.map fun w => { w with joinHandle := none }⟩,
   List.replicate p.workers.length Message.Terminate,
   (p.workers.filter fun w => w.joinHandle.isSome).map Worker.id)

/-- Embedding of `impl Drop for ThreadPool` (main.rs 136-140): the body of
`drop` is exactly the call `self.shutdown()`. -/
def ThreadPool.dropPool (p : ThreadPool) : ThreadPool × List Message × List Nat :=
  p.shutdown

/-- The send loop of `ThreadPool::shutdown` (main.rs 123-125), run against
the channel: each iteration is `self.sender.send(Message::Terminate).unwrap()`,
so the first send that fails because the channel is disconnected panics,
aborting the whole call (`none`). -/
def sendTerminates : Channel → Nat → Option Channel
  | c, 0 => some c
  | c, k + 1 =>
    match c.send Message.Terminate with
    | (c', Except.ok _) => sendTerminates c' k
    | (_, Except.error _) => none

/-- Channel-aware embedding of `ThreadPool::shutdown` (main.rs 121-133),
including the `.unwrap()` on every send (main.rs 124): the send loop runs
against the channel and a failed send panics (`none`) before the join loop
is ever reached; only if all `workers.len()` sends succeed does the call go
on to take and join the handles.  Returns the pool, the channel and the
joined worker ids. -/
def ThreadPool.shutdownRun (p : ThreadPool) (c : Channel) :
    Option (ThreadPool × Channel × List Nat) :=
  match sendTerminates c p.workers.length with
  | none => none
  | some c' =>
    some (⟨p.workers.map fun w => { w with joinHandle := none }⟩, c',
          (p.workers.filter fun w => w.joinHandle.isSome).map Worker.id)

/-- The request-line bytes matched by `handle_connection` (main.rs 51):
`b"GET / HTTP/1.1\r\n"`.  The literal is pure ASCII, so each byte is the
code point of the corresponding character. -/
def get_req : List UInt8 :=
  "GET / HTTP/1.1\r\n".data.map fun c => UInt8.ofNat c.toNat

/-- Embedding of `handle_connection` (main.rs 50-78).  `buffer` is the byte
buffer filled by `stream.read`; `files` maps a file name to its contents as
read by `fs::read_to_string` (assumed to succeed, as the source unwraps).
Rust's `contents.len()` is the UTF-8 byte length, hence `utf8ByteSize`. -/
def handle_connection (buffer : List UInt8) (files : String → String) : String :=
  let pair := if get_req.isPrefixOf buffer then
      ("HTTP/1.1 200 OK", "hello.html")
    else
      ("HTTP/1.1 404 NOT FOUND", "404.html")
  let contents := files pair.2
  pair.1 ++ "\r\nContent-Length: " ++ toString contents.utf8ByteSize ++ "\r\n\r\n" ++ contents

/-- The interrupt signal number (`signal_hook::SIGINT = 2`). -/
def SIGINT : Nat := 2

/-- Observable effects of the SIGINT handler: writing a line, invoking the
callback registered in `main` (which is `|| pool.shutdown()`, main.rs 18-20),
and terminating the process with an exit code. -/
inductive SigEvent where
  | println (s : String)
  | invokeShutdownCallback
  | processExit (code : Nat)
deriving DecidableEq

/-- Embedding of `on_sigint` (main.rs 44-48) as the trace of its effects, in
program order: print, call `func()` once, then `std::process::exit(128 + SIGINT)`. -/
def on_sigint : List SigEvent :=
  [SigEvent.println "SIGINT caught - exiting",
   SigEvent.invokeShutdownCallback,
   SigEvent.processExit (128 + SIGINT)]

/-! ## Operational model of the running pool

One state of the whole system: the pending channel queue, the state of each
worker thread (indexed as in `ThreadPool.workers`), the global log of job
executions, and the progress of the thread that called `shutdown` through
its join loop.  A step is one atomic action of one thread. -/

/-- State of one worker thread: looping and ready to dequeue (`running`,
main.rs 149-163), exited normally after dequeuing `Terminate` (`stopped`,
main.rs 158-161), or dead because a job panicked out of the uncaught
`job()` call (`panicked`, main.rs 153-156). -/
inductive WState where
  | running
  | stopped
  | panicked
deriving DecidableEq

/-- Global state of the pool system. `executed` records, in order, which
worker ran which job. `mainJoined` is how many workers the shutdown caller
has joined so far (it joins them in vector order, main.rs 128-132);
`mainReturned` is whether `shutdown` has returned to its caller. -/
structure Sys where
  queue : List Message
  workers : List WState
  executed : List (Nat × Job)
  mainJoined : Nat
  mainReturned : Bool
deriving DecidableEq

/-- One atomic step of the system.

* `recvJob` / `recvTerminate`: a running worker `i` holds the receiver lock
  and dequeues the head message (main.rs 150); on `NewJob` it runs the job
  synchronously — returning to its loop, or dying if the job panics
  (main.rs 153-156) — and on `Terminate` it breaks out of the loop and the
  thread exits (main.rs 158-161).
* `joinWorker`: the shutdown caller's `handle.join().unwrap()` on the next
  worker completes, which requires that worker's thread to have exited
  normally (main.rs 128-132).
* `shutdownReturn`: having joined every worker, `shutdown` returns
  (main.rs 133). -/
inductive Step : Sys → Sys → Prop where
  | recvJob (s : Sys) (i : Nat) (j : Job) (rest : List Message)
      (hq : s.queue = Message.NewJob j :: rest)
      (hw : s.workers[i]? = some WState.running) :
      Step s { s with
        queue := rest,
        workers := s.workers.set i (if j.panics then WState.panicked else WState.running),
        executed := s.executed ++ [(i, j)] }
  | recvTerminate (s : Sys) (i : Nat) (rest : List Message)
      (hq : s.queue = Message.Terminate :: rest)
      (hw : s.workers[i]? = some WState.running) :
      Step s { s with
        queue := rest,
        workers := s.workers.set i WState.stopped }
  | joinWorker (s : Sys)
      (hw : s.workers[s.mainJoined]? = some WState.stopped) :
      Step s { s with mainJoined := s.mainJoined + 1 }
  | shutdownReturn (s : Sys)
      (hj : s.mainJoined = s.workers.length) :
      Step s { s with mainReturned := true }

/-- Reachability: zero or more system steps. -/
abbrev sysReach : Sys → Sys → Prop :=
  Relation.ReflTransGen Step

/-- Initial state of the shutdown scenario: `jobs` were submitted, in order,
from the same thread that then called `shutdown`, which sent the `n`
`Terminate` messages (main.rs 123-125).  The channel is FIFO per producer,
so the queue holds the job messages followed by the terminations; all `n`
workers are still in their receive loop, nothing has been executed, and the
caller is about to start joining. -/
def initSys (n : Nat) (jobs : List Job) : Sys :=
  { queue := jobs.map Message.NewJob ++ List.replicate n Message.Terminate,
    workers := List.replicate n WState.running,
    executed := [],
    mainJoined := 0,
    mainReturned := false }

/-- Number of workers whose thread has exited normally. -/
def countStopped : List WState → Nat
  | [] => 0
  | WState.stopped :: ws => countStopped ws + 1
  | WState.running :: ws => countStopped ws
  | WState.panicked :: ws => countStopped ws

/-- Number of workers still in their receive loop: the pool's live capacity. -/
def countRunning : List WState → Nat
  | [] => 0
  | WState.running :: ws => countRunning ws + 1
  | WState.stopped :: ws => countRunning ws
  | WState.panicked :: ws => countRunning ws

/-- The jobs executed by worker `i`, in order. -/
def executedBy (i : Nat) (s : Sys) : List Job :=
  s.executed.filterMap fun p => if p.1 = i then some p.2 else none

/-- The invariant of the shutdown scenario.  The queue is always the not yet
consumed suffix of the initial queue: the last `d` positions of `jobs` still
to be dequeued followed by the `t` remaining `Terminate` messages; the jobs
dequeued so far were executed in submission order; every `Terminate`
consumed stopped one worker; the shutdown caller has only joined workers
whose thread already exited, and it has returned only after joining all of
them.  A `Terminate` can only be consumed once the job messages in front of
it are gone (`t < n → d = jobs.length`). -/
abbrev PoolInv (n : Nat) (jobs : List Job) (s : Sys) : Prop :=
  s.workers.length = n ∧
  s.mainJoined ≤ n ∧
  (∀ i, i < s.mainJoined → s.workers[i]? = some WState.stopped) ∧
  (s.mainReturned = true → s.mainJoined = n) ∧
  ∃ d t, d ≤ jobs.length ∧ t ≤ n ∧
    s.queue = (jobs.drop d).map Message.NewJob ++ List.replicate t Message.Terminate ∧
    s.executed.map Prod.snd = jobs.take d ∧
    countStopped s.workers = n - t ∧
    (t < n → d = jobs.length)

/-! ## Helper lemmas -/

theorem getq_some_lt {α : Type} {l : List α} {i : Nat} {a : α}
    (h : l[i]? = some a) : i < l.length := by
  rcases Nat.lt_or_ge i l.length with h' | h'
  · exact h'
  · rw [List.getElem?_eq_none h'] at h
    cases h

theorem countStopped_replicate_running (n : Nat) :
    countStopped (List.replicate n WState.running) = 0 := by
  induction n with
  | zero => rfl
  | succ n ih => simpa [List.replicate_succ, countStopped] using ih

theorem countStopped_set_stopped :
    ∀ (l : List WState) (i : Nat), l[i]? = some WState.running →
      countStopped (l.set i WState.stopped) = countStopped l + 1 := by
  intro l
  induction l with
  | nil => intro i h; cases h
  | cons w ws ih =>
    intro i h
    cases i with
    | zero =>
      simp only [List.getElem?_cons_zero, Option.some.injEq] at h
      subst h
      simp [countStopped]
    | succ i =>
      simp only [List.getElem?_cons_succ] at h
      cases w <;> simp [countStopped, List.set, ih i h]

theorem countStopped_set_of_ne_stopped :
    ∀ (l : List WState) (i : Nat) (w : WState), l[i]? = some WState.running →
      w ≠ WState.stopped →
      countStopped (l.set i w) = countStopped l := by
  intro l
  induction l with
  | nil => intro i w h _; cases h
  | cons w0 ws ih =>
    intro i w h hw
    cases i with
    | zero =>
      simp only [List.getElem?_cons_zero, Option.some.injEq] at h
      subst h
      cases w
      · simp [countStopped]
      · exact absurd rfl hw
      · simp [countStopped]
    | succ i =>
      simp only [List.getElem?_cons_succ] at h
      cases w0 <;> simp [countStopped, List.set, ih i w h hw]

theorem countStopped_eq_length :
    ∀ (l : List WState), (∀ i, i < l.length → l[i]? = some WState.stopped) →
      countStopped l = l.length := by
  intro l
  induction l with
  | nil => intro _; rfl
  | cons w ws ih =>
    intro h
    have h0 := h 0 (by simp)
    simp only [List.getElem?_cons_zero, Option.some.injEq] at h0
    subst h0
    have hrec : ∀ i, i < ws.length → ws[i]? = some WState.stopped := by
      intro i hi
      have := h (i + 1) (by simpa using Nat.succ_lt_succ hi)
      simpa using this
    simp [countStopped, ih hrec]

theorem countRunning_set_panicked :
    ∀ (l : List WState) (i : Nat), l[i]? = some WState.running →
      countRunning (l.set i WState.panicked) + 1 = countRunning l := by
  intro l
  induction l with
  | nil => intro i h; cases h
  | cons w ws ih =>
    intro i h
    cases i with
    | zero =>
      simp only [List.getElem?_cons_zero, Option.some.injEq] at h
      subst h
      simp [countRunning]
    | succ i =>
      simp only [List.getElem?_cons_succ] at h
      cases w <;> simp [countRunning, List.set, ← ih i h]

theorem drop_take_of_drop_eq_cons {α : Type} :
    ∀ (l : List α) (d : Nat) (x : α) (tl : List α), l.drop d = x :: tl →
      l.drop (d + 1) = tl ∧ l.take (d + 1) = l.take d ++ [x] ∧ d < l.length := by
  intro l
  induction l with
  | nil => intro d x tl h; simp at h
  | cons a t ih =>
    intro d x tl h
    cases d with
    | zero =>
      simp only [List.drop_zero] at h
      cases h
      exact ⟨by simp, by simp, by simp⟩
    | succ d =>
      have h' : t.drop d = x :: tl := by simpa using h
      obtain ⟨h1, h2, h3⟩ := ih d x tl h'
      refine ⟨by simpa using h1, ?_, by simpa using Nat.succ_lt_succ h3⟩
      simp [List.take_succ_cons, h2]

theorem shape_cons_newJob (jobs' : List Job) (t : Nat) (j : Job) (rest : List Message)
    (h : jobs'.map Message.NewJob ++ List.replicate t Message.Terminate =
         Message.NewJob j :: rest) :
    ∃ tl, jobs' = j :: tl ∧
      rest = tl.map Message.NewJob ++ List.replicate t Message.Terminate := by
  cases jobs' with
  | nil =>
    cases t with
    | zero => simp at h
    | succ t => simp [List.replicate_succ] at h
  | cons j0 tl =>
    simp only [List.map_cons, List.cons_append, List.cons.injEq, Message.NewJob.injEq] at h
    exact ⟨tl, by rw [h.1], h.2.symm⟩

theorem shape_cons_terminate (jobs' : List Job) (t : Nat) (rest : List Message)
    (h : jobs'.map Message.NewJob ++ List.replicate t Message.Terminate =
         Message.Terminate :: rest) :
    jobs' = [] ∧ ∃ t0, t = t0 + 1 ∧ rest = List.replicate t0 Message.Terminate := by
  cases jobs' with
  | cons j0 tl => simp at h
  | nil =>
    simp only [List.map_nil, List.nil_append] at h
    cases t with
    | zero => simp at h
    | succ t0 =>
      simp only [List.replicate_succ, List.cons.injEq] at h
      exact ⟨rfl, t0, rfl, h.2.symm⟩

theorem poolInv_init (n : Nat) (jobs : List Job) : PoolInv n jobs (initSys n jobs) := by
  refine ⟨by simp [initSys], by simp [initSys], ?_, ?_,
    0, n, Nat.zero_le _, Nat.le_refl n, by simp [initSys], by simp [initSys],
    ?_, fun ht => absurd ht (lt_irrefl n)⟩
  · intro i hi
    simp [initSys] at hi
  · intro h
    simp [initSys] at h
  · simp [initSys, countStopped_replicate_running]

theorem poolInv_step (n : Nat) (jobs : List Job) {s s' : Sys} (hst : Step s s')
    (hinv : PoolInv n jobs s) : PoolInv n jobs s' := by
  obtain ⟨hlen, hjle, hjst, hret, d, t, hd, ht, hq, hex, hcs, himp⟩ := hinv
  cases hst with
  | recvJob i j rest hq0 hw =>
    have hsh := hq.symm.trans hq0
    obtain ⟨tl, hdrop, hrest⟩ := shape_cons_newJob _ _ _ _ hsh
    obtain ⟨hdrop1, htake1, hdlt⟩ := drop_take_of_drop_eq_cons jobs d j tl hdrop
    refine ⟨by simp [hlen], hjle, ?_, hret, d + 1, t, hdlt, ht, ?_, ?_, ?_, ?_⟩
    · intro k hk
      have hks := hjst k hk
      have hki : i ≠ k := by
        intro he
        subst he
        have := hw.symm.trans hks
        simp at this
      rw [List.getElem?_set_ne hki]
      exact hks
    · show rest = (jobs.drop (d + 1)).map Message.NewJob ++ _
      rw [hrest, hdrop1]
    · show (s.executed ++ [(i, j)]).map Prod.snd = jobs.take (d + 1)
      rw [List.map_append, hex, htake1]
      rfl
    · show countStopped (s.workers.set i _) = n - t
      rw [countStopped_set_of_ne_stopped s.workers i _ hw (by cases hp : j.panics <;> simp [hp])]
      exact hcs
    · intro htlt
      have := himp htlt
      omega
  | recvTerminate i rest hq0 hw =>
    have hsh := hq.symm.trans hq0
    obtain ⟨hnil, t0, ht0, hrest⟩ := shape_cons_terminate _ _ _ hsh
    have hdlen : d = jobs.length := by
      have := List.drop_eq_nil_iff.mp hnil
      omega
    subst ht0
    refine ⟨by simp [hlen], hjle, ?_, hret, d, t0, hd, by omega, ?_, hex, ?_, fun _ => hdlen⟩
    · intro k hk
      have hks := hjst k hk
      have hki : i ≠ k := by
        intro he
        subst he
        have := hw.symm.trans hks
        simp at this
      rw [List.getElem?_set_ne hki]
      exact hks
    · show rest = (jobs.drop d).map Message.NewJob ++ _
      rw [hnil, hrest]
      rfl
    · show countStopped (s.workers.set i WState.stopped) = n - t0
      rw [countStopped_set_stopped s.workers i hw, hcs]
      omega
  | joinWorker hw =>
    have hlt : s.mainJoined < s.workers.length := getq_some_lt hw
    refine ⟨hlen, show s.mainJoined + 1 ≤ n by omega, ?_, ?_, d, t, hd, ht, hq, hex, hcs, himp⟩
    · intro k hk
      rcases Nat.lt_succ_iff_lt_or_eq.mp hk with hk' | hk'
      · exact hjst k hk'
      · subst hk'
        exact hw
    · intro hrt
      have := hret hrt
      omega
  | shutdownReturn hj =>
    refine ⟨hlen, hjle, hjst, ?_, d, t, hd, ht, hq, hex, hcs, himp⟩
    intro _
    rw [hj, hlen]

theorem poolInv_reach (n : Nat) (jobs : List Job) {s : Sys}
    (h : sysReach (initSys n jobs) s) : PoolInv n jobs s := by
  induction h with
  | refl => exact poolInv_init n jobs
  | tail _ hbc ih => exact poolInv_step n jobs hbc ih

theorem step_preserves_terminal {s s' : Sys} (hst : Step s s') (i : Nat) (w : WState)
    (hwr : w ≠ WState.running) (h : s.workers[i]? = some w) :
    s'.workers[i]? = some w ∧ executedBy i s' = executedBy i s := by
  cases hst with
  | recvJob i0 j rest hq0 hw0 =>
    have hne : i0 ≠ i := by
      intro he
      subst he
      have := hw0.symm.trans h
      simp only [Option.some.injEq] at this
      exact hwr this.symm
    constructor
    · show (s.workers.set i0 _)[i]? = some w
      rw [List.getElem?_set_ne hne]
      exact h
    · show executedBy i { s with queue := rest, workers := _, executed := s.executed ++ [(i0, j)] }
        = executedBy i s
      simp [executedBy, List.filterMap_append, hne]
  | recvTerminate i0 rest hq0 hw0 =>
    have hne : i0 ≠ i := by
      intro he
      subst he
      have := hw0.symm.trans h
      simp only [Option.some.injEq] at this
      exact hwr this.symm
    constructor
    · show (s.workers.set i0 _)[i]? = some w
      rw [List.getElem?_set_ne hne]
      exact h
    · rfl
  | joinWorker hw0 => exact ⟨h, rfl⟩
  | shutdownReturn hj => exact ⟨h, rfl⟩

theorem reach_preserves_terminal {s s' : Sys} (hr : sysReach s s') (i : Nat) (w : WState)
    (hwr : w ≠ WState.running) (h : s.workers[i]? = some w) :
    s'.workers[i]? = some w ∧ executedBy i s' = executedBy i s := by
  induction hr with
  | refl => exact ⟨h, rfl⟩
  | tail _ hbc ih =>
    obtain ⟨hw1, hex1⟩ := ih
    obtain ⟨hw2, hex2⟩ := step_preserves_terminal hbc i w hwr hw1
    exact ⟨hw2, hex2.trans hex1⟩

/-! ## Claims -/

/-- C1: for a pool constructed with `n ≥ 1` workers, `shutdown` sends exactly
`n` `Terminate` messages (one per worker) and joins every worker, and it does
not return before all `n` worker threads have exited. -/
theorem c1_shutdown_sends_n_terminates_joins_all
    (n : Nat) (hn : 1 ≤ n) (p : ThreadPool) (hp : ThreadPool.new n = some p)
    (jobs : List Job) (s : Sys)
    (hs : sysReach (initSys n jobs) s) (hret : s.mainReturned = true) :
    p.shutdown.2.1 = List.replicate n Message.Terminate ∧
    p.shutdown.2.1.length = p.workers.length ∧
    p.shutdown.2.2 = p.workers.map Worker.id ∧
    s.mainJoined = n ∧
    (∀ i, i < n → s.workers[i]? = some WState.stopped) := by
  have hwp : p.workers = (List.range n).map fun id => Worker.new id 0 := by
    rw [ThreadPool.new, if_pos (by omega : 0 < n)] at hp
    cases hp
    rfl
  obtain ⟨hlen, hjle, hjst, hretj, hqueue⟩ := poolInv_reach n jobs hs
  have hjn := hretj hret
  refine ⟨?_, ?_, ?_, hjn, ?_⟩
  · show List.replicate p.workers.length Message.Terminate = _
    rw [hwp]
    simp
  · simp [ThreadPool.shutdown]
  · show (p.workers.filter fun w => w.joinHandle.isSome).map Worker.id = _
    rw [hwp, List.filter_map]
    have hall : ((fun w => w.joinHandle.isSome) ∘ fun id => Worker.new id 0) = fun _ => true := by
      funext id
      rfl
    rw [hall]
    simp
  · intro i hi
    exact hjst i (by omega)

/-- Witness for C1 at `n = 1`, no jobs: the explicit three-step run
dequeue-`Terminate`, join, return. -/
theorem c1_witness :
    (⟨[Worker.new 0 0]⟩ : ThreadPool).shutdown.2.1 = List.replicate 1 Message.Terminate ∧
    (⟨[Worker.new 0 0]⟩ : ThreadPool).shutdown.2.1.length =
      (⟨[Worker.new 0 0]⟩ : ThreadPool).workers.length ∧
    (⟨[Worker.new 0 0]⟩ : ThreadPool).shutdown.2.2 =
      (⟨[Worker.new 0 0]⟩ : ThreadPool).workers.map Worker.id ∧
    ({ queue := [], workers := [WState.stopped], executed := [],
       mainJoined := 1, mainReturned := true } : Sys).mainJoined = 1 := by
  have hchain : sysReach (initSys 1 [])
      { queue := [], workers := [WState.stopped], executed := [],
        mainJoined := 1, mainReturned := true } :=
    Relation.ReflTransGen.head (Step.recvTerminate _ 0 [] rfl rfl)
      (Relation.ReflTransGen.head (Step.joinWorker _ rfl)
        (Relation.ReflTransGen.head (Step.shutdownReturn _ rfl)
          Relation.ReflTransGen.refl))
  have h := c1_shutdown_sends_n_terminates_joins_all 1 (by decide) ⟨[Worker.new 0 0]⟩
    (by decide) [] _ hchain rfl
  exact ⟨h.1, h.2.1, h.2.2.1, h.2.2.2.1⟩

/-- C2: drain-then-stop.  With `k` jobs submitted (same thread) before
`shutdown`, once `shutdown` has returned every one of the `k` jobs has been
executed, exactly once and in submission order, and the queue is empty. -/
theorem c2_drain_then_stop
    (n : Nat) (jobs : List Job) (s : Sys) (hn : 1 ≤ n)
    (hs : sysReach (initSys n jobs) s) (hret : s.mainReturned = true) :
    s.executed.map Prod.snd = jobs ∧ s.queue = [] := by
  obtain ⟨hlen, hjle, hjst, hretj, d, t, hd, ht, hq, hex, hcs, himp⟩ := poolInv_reach n jobs hs
  have hjn := hretj hret
  have hall : ∀ i, i < s.workers.length → s.workers[i]? = some WState.stopped := by
    intro i hi
    exact hjst i (by omega)
  have hcsl := countStopped_eq_length s.workers hall
  have ht0 : t = 0 := by omega
  have hdlen : d = jobs.length := himp (by omega)
  constructor
  · rw [hex, hdlen]
    simp
  · rw [hq, hdlen, ht0]
    simp

/-- Witness for C2: one worker, one job; the explicit run executes the job,
stops the worker, joins it and returns. -/
theorem c2_witness :
    ({ queue := [], workers := [WState.stopped], executed := [(0, ⟨0, false⟩)],
       mainJoined := 1, mainReturned := true } : Sys).executed.map Prod.snd = [⟨0, false⟩] ∧
    ({ queue := [], workers := [WState.stopped], executed := [(0, ⟨0, false⟩)],
       mainJoined := 1, mainReturned := true } : Sys).queue = [] := by
  have hchain : sysReach (initSys 1 [⟨0, false⟩])
      { queue := [], workers := [WState.stopped], executed := [(0, ⟨0, false⟩)],
        mainJoined := 1, mainReturned := true } :=
    Relation.ReflTransGen.head (Step.recvJob _ 0 ⟨0, false⟩ [Message.Terminate] rfl rfl)
      (Relation.ReflTransGen.head (Step.recvTerminate _ 0 [] rfl rfl)
        (Relation.ReflTransGen.head (Step.joinWorker _ rfl)
          (Relation.ReflTransGen.head (Step.shutdownReturn _ rfl)
            Relation.ReflTransGen.refl)))
  exact c2_drain_then_stop 1 [⟨0, false⟩] _ (by decide) hchain rfl

/-- C3: `ThreadPool::new 0` aborts construction (before spawning anything);
for `n ≥ 1` it yields exactly `n` workers with ids `0..n-1`, each holding a
live thread handle and the one shared receiver endpoint. -/
theorem c3_new_zero_aborts_new_n_spawns_workers
    (n : Nat) (hn : 1 ≤ n) (p : ThreadPool) (hp : ThreadPool.new n = some p) :
    ThreadPool.new 0 = none ∧
    p.workers.length = n ∧
    p.workers.map Worker.id = List.range n ∧
    p.workers.map Worker.joinHandle = List.replicate n (some ()) ∧
    p.workers.map Worker.receiver = List.replicate n 0 := by
  have hwp : p.workers = (List.range n).map fun id => Worker.new id 0 := by
    rw [ThreadPool.new, if_pos (by omega : 0 < n)] at hp
    cases hp
    rfl
  refine ⟨by decide, ?_, ?_, ?_, ?_⟩
  · rw [hwp]
    simp
  · rw [hwp, List.map_map]
    have h1 : (Worker.id ∘ fun id => Worker.new id 0) = fun id : Nat => id := rfl
    rw [h1, List.map_id']
  · rw [hwp, List.map_map]
    have h2 : (Worker.joinHandle ∘ fun id => Worker.new id 0) = fun _ : Nat => some () := rfl
    rw [h2, List.map_const', List.length_range]
  · rw [hwp, List.map_map]
    have h3 : (Worker.receiver ∘ fun id => Worker.new id 0) = fun _ : Nat => (0 : Nat) := rfl
    rw [h3, List.map_const', List.length_range]

/-- Witness for C3 at `n = 3`. -/
theorem c3_witness :
    ThreadPool.new 0 = none ∧
    (⟨[Worker.new 0 0, Worker.new 1 0, Worker.new 2 0]⟩ : ThreadPool).workers.length = 3 ∧
    (⟨[Worker.new 0 0, Worker.new 1 0, Worker.new 2 0]⟩ : ThreadPool).workers.map Worker.id =
      List.range 3 ∧
    (⟨[Worker.new 0 0, Worker.new 1 0, Worker.new 2 0]⟩ : ThreadPool).workers.map
      Worker.joinHandle = List.replicate 3 (some ()) ∧
    (⟨[Worker.new 0 0, Worker.new 1 0, Worker.new 2 0]⟩ : ThreadPool).workers.map
      Worker.receiver = List.replicate 3 0 :=
  c3_new_zero_aborts_new_n_spawns_workers 3 (by decide)
    ⟨[Worker.new 0 0, Worker.new 1 0, Worker.new 2 0]⟩ (by decide)

/-- C5 (as a code bug): on a closed channel `Channel.send` fails, yet
`ThreadPool::submit` returns normally with the channel unchanged — the
`Result` of the send is dropped on the floor, so the error is silently
swallowed and the job silently lost, against the spec's requirement to
surface it. -/
theorem c5_submit_silently_swallows_send_error :
    ThreadPool.submit { msgs := [], closed := true } { id := 0, panics := false } =
      { msgs := [], closed := true } ∧
    (Channel.send { msgs := [], closed := true }
        (Message.NewJob { id := 0, panics := false })).2 =
      Except.error SendError.disconnected := by
  constructor
  · rfl
  · rfl

theorem sendTerminates_closed (c : Channel) (hc : c.closed = true)
    (k : Nat) (hk : 1 ≤ k) : sendTerminates c k = none := by
  cases k with
  | zero => omega
  | succ k => simp [sendTerminates, Channel.send, hc]

theorem sendTerminates_open (k : Nat) :
    ∀ m : List Message, sendTerminates { msgs := m, closed := false } k =
      some { msgs := m ++ List.replicate k Message.Terminate, closed := false } := by
  induction k with
  | zero =>
    intro m
    simp [sendTerminates]
  | succ k ih =>
    intro m
    simp [sendTerminates, Channel.send, ih, List.replicate_succ]

/-- C6 counterexample: after the first `shutdown` of the one-worker pool
every worker has exited, so all receiver clones are dropped and the channel
is disconnected; calling `shutdown` a second time then panics at the first
`send(Terminate).unwrap()` (result `none`) instead of returning as an
idempotent no-op — whereas the first call, on the live channel, completes
(`some`). -/
theorem c6_counterexample :
    ThreadPool.shutdownRun (((ThreadPool.new 1).getD ⟨[]⟩).shutdown.1)
      { msgs := [], closed := true } = none ∧
    ThreadPool.shutdownRun ((ThreadPool.new 1).getD ⟨[]⟩)
      { msgs := [], closed := false } ≠ none := by
  constructor
  · rfl
  · intro h
    cases h

/-- C6 (amended): a second `shutdown` call is not idempotent, and it does
not re-deliver `Terminate`s either.  The send loop has no one-shot flag, so
the second call immediately attempts another send; the channel being
disconnected (every worker exited during the first call and dropped its
receiver clone), that first `send(...).unwrap()` panics: no message is
delivered and the join loop is never reached, so no already-joined handle
is joined again — but by virtue of the panic, not of a guard.  The first
call on the open channel, by contrast, delivers the `n` `Terminate`s and
joins all `n` workers. -/
theorem c6_second_shutdown_panics_on_disconnected_send
    (n : Nat) (hn : 1 ≤ n) (p : ThreadPool) (hp : ThreadPool.new n = some p)
    (c : Channel) (hc : c.closed = true) :
    ThreadPool.shutdownRun (p.shutdown.1) c = none ∧
    ThreadPool.shutdownRun p { msgs := [], closed := false } =
      some (⟨p.workers.map fun w => { w with joinHandle := none }⟩,
            { msgs := List.replicate n Message.Terminate, closed := false },
            p.workers.map Worker.id) := by
  have hwp : p.workers = (List.range n).map fun id => Worker.new id 0 := by
    rw [ThreadPool.new, if_pos (by omega : 0 < n)] at hp
    cases hp
    rfl
  have hlen : p.workers.length = n := by
    rw [hwp]
    simp
  constructor
  · have hlen1 : (p.shutdown.1).workers.length = n := by
      simp [ThreadPool.shutdown, hlen]
    simp [ThreadPool.shutdownRun, hlen1, sendTerminates_closed c hc n hn]
  · have hfilter : (p.workers.filter fun w => w.joinHandle.isSome) = p.workers := by
      rw [hwp]
      apply List.filter_eq_self.mpr
      intro w hw
      obtain ⟨id, _, rfl⟩ := List.mem_map.mp hw
      rfl
    simp [ThreadPool.shutdownRun, sendTerminates_open, hlen, hfilter]

/-- Witness for the amended C6 at `n = 1`: the second call on the
disconnected channel panics, the first call on the live channel succeeds. -/
theorem c6_witness :
    ThreadPool.shutdownRun ((⟨[Worker.new 0 0]⟩ : ThreadPool).shutdown.1)
      { msgs := [], closed := true } = none ∧
    ThreadPool.shutdownRun (⟨[Worker.new 0 0]⟩ : ThreadPool)
      { msgs := [], closed := false } =
      some (⟨[{ id := 0, receiver := 0, joinHandle := none }]⟩,
            { msgs := List.replicate 1 Message.Terminate, closed := false },
            [0]) :=
  c6_second_shutdown_panics_on_disconnected_send 1 (by decide)
    ⟨[Worker.new 0 0]⟩ (by decide) { msgs := [], closed := true } rfl

/-- C4: the worker receive loop is the stated state machine: on `NewJob`
from `Running`, the job is executed exactly once (appended once to the
worker's execution log) and the worker is `Running` again; on `Terminate`
from `Running` the worker moves to `Stopped`; and `Stopped` is terminal —
across any further steps that worker stays stopped and dequeues and
executes nothing more. -/
theorem c4_worker_state_machine (s : Sys) (i : Nat) :
    (∀ j rest, s.queue = Message.NewJob j :: rest → s.workers[i]? = some WState.running →
      j.panics = false →
      Step s { s with
        queue := rest,
        workers := s.workers.set i WState.running,
        executed := s.executed ++ [(i, j)] } ∧
      (s.workers.set i WState.running)[i]? = some WState.running ∧
      executedBy i { s with
        queue := rest,
        workers := s.workers.set i WState.running,
        executed := s.executed ++ [(i, j)] } = executedBy i s ++ [j]) ∧
    (∀ rest, s.queue = Message.Terminate :: rest → s.workers[i]? = some WState.running →
      Step s { s with queue := rest, workers := s.workers.set i WState.stopped } ∧
      (s.workers.set i WState.stopped)[i]? = some WState.stopped) ∧
    (∀ s', sysReach s s' → s.workers[i]? = some WState.stopped →
      s'.workers[i]? = some WState.stopped ∧ executedBy i s' = executedBy i s) := by
  refine ⟨?_, ?_, ?_⟩
  · intro j rest hq hw hp
    have hst := Step.recvJob s i j rest hq hw
    have hlt : i < s.workers.length := getq_some_lt hw
    refine ⟨by simpa [hp] using hst, List.getElem?_set_self hlt, ?_⟩
    simp [executedBy, List.filterMap_append]
  · intro rest hq hw
    have hlt : i < s.workers.length := getq_some_lt hw
    exact ⟨Step.recvTerminate s i rest hq hw, List.getElem?_set_self hlt⟩
  · intro s' hr hw
    exact reach_preserves_terminal hr i WState.stopped (by simp) hw

/-- Witness for C4: the two transitions at concrete one- and two-worker
states, and stopped-ness of worker 0 preserved across a step of worker 1. -/
theorem c4_witness :
    Step ({ queue := [Message.NewJob ⟨0, false⟩], workers := [WState.running], executed := [],
            mainJoined := 0, mainReturned := false } : Sys)
         { queue := [], workers := [WState.running], executed := [(0, ⟨0, false⟩)],
           mainJoined := 0, mainReturned := false } ∧
    Step ({ queue := [Message.Terminate], workers := [WState.running], executed := [],
            mainJoined := 0, mainReturned := false } : Sys)
         { queue := [], workers := [WState.stopped], executed := [],
           mainJoined := 0, mainReturned := false } ∧
    ({ queue := [], workers := [WState.stopped, WState.stopped], executed := [],
       mainJoined := 0, mainReturned := false } : Sys).workers[0]? = some WState.stopped := by
  refine ⟨?_, ?_, ?_⟩
  · exact ((c4_worker_state_machine
      { queue := [Message.NewJob ⟨0, false⟩], workers := [WState.running], executed := [],
        mainJoined := 0, mainReturned := false } 0).1 ⟨0, false⟩ [] rfl rfl rfl).1
  · exact ((c4_worker_state_machine
      { queue := [Message.Terminate], workers := [WState.running], executed := [],
        mainJoined := 0, mainReturned := false } 0).2.1 [] rfl rfl).1
  · have hchain : sysReach
        ({ queue := [Message.Terminate], workers := [WState.stopped, WState.running],
           executed := [], mainJoined := 0, mainReturned := false } : Sys)
        { queue := [], workers := [WState.stopped, WState.stopped], executed := [],
          mainJoined := 0, mainReturned := false } :=
      Relation.ReflTransGen.head (Step.recvTerminate _ 1 [] rfl rfl)
        Relation.ReflTransGen.refl
    exact ((c4_worker_state_machine
      { queue := [Message.Terminate], workers := [WState.stopped, WState.running],
        executed := [], mainJoined := 0, mainReturned := false } 0).2.2 _ hchain rfl).1

/-- C7: implicit destruction is the very same operation as an explicit
`shutdown` call — `Drop::drop` delegates to `shutdown`, so the sent
messages, the joins and the final pool state coincide for every pool. -/
theorem c7_drop_is_shutdown (p : ThreadPool) :
    ThreadPool.dropPool p = p.shutdown ∧
    (ThreadPool.dropPool p).2.1 = p.shutdown.2.1 ∧
    (ThreadPool.dropPool p).2.2 = p.shutdown.2.2 := by
  exact ⟨rfl, rfl, rfl⟩

/-- C8: a panicking job is not caught — the dequeue step of a running worker
on a panicking job is a system step to a state where that worker is
`panicked`; the live capacity drops by one; and in every state reachable
from there the worker is still `panicked` and has executed nothing further. -/
theorem c8_job_panic_permanently_kills_worker
    (s : Sys) (i : Nat) (j : Job) (rest : List Message)
    (hq : s.queue = Message.NewJob j :: rest)
    (hw : s.workers[i]? = some WState.running)
    (hp : j.panics = true) :
    Step s { s with
      queue := rest,
      workers := s.workers.set i WState.panicked,
      executed := s.executed ++ [(i, j)] } ∧
    (s.workers.set i WState.panicked)[i]? = some WState.panicked ∧
    countRunning (s.workers.set i WState.panicked) + 1 = countRunning s.workers ∧
    (∀ s', sysReach { s with
        queue := rest,
        workers := s.workers.set i WState.panicked,
        executed := s.executed ++ [(i, j)] } s' →
      s'.workers[i]? = some WState.panicked ∧
      executedBy i s' = executedBy i { s with
        queue := rest,
        workers := s.workers.set i WState.panicked,
        executed := s.executed ++ [(i, j)] }) := by
  have hst := Step.recvJob s i j rest hq hw
  have hlt : i < s.workers.length := getq_some_lt hw
  refine ⟨by simpa [hp] using hst, List.getElem?_set_self hlt,
    countRunning_set_panicked s.workers i hw, ?_⟩
  intro s' hr
  exact reach_preserves_terminal hr i WState.panicked (by simp)
    (List.getElem?_set_self hlt)

/-- Witness for C8: worker 0 dequeues the panicking job 7 and is dead for
good. -/
theorem c8_witness :
    Step ({ queue := [Message.NewJob ⟨7, true⟩], workers := [WState.running], executed := [],
            mainJoined := 0, mainReturned := false } : Sys)
         { queue := [], workers := [WState.panicked], executed := [(0, ⟨7, true⟩)],
           mainJoined := 0, mainReturned := false } ∧
    ([WState.running].set 0 WState.panicked)[0]? = some WState.panicked ∧
    countRunning ([WState.running].set 0 WState.panicked) + 1 =
      countRunning [WState.running] ∧
    ({ queue := [], workers := [WState.panicked], executed := [(0, ⟨7, true⟩)],
       mainJoined := 0, mainReturned := false } : Sys).workers[0]? =
      some WState.panicked := by
  have h := c8_job_panic_permanently_kills_worker
    { queue := [Message.NewJob ⟨7, true⟩], workers := [WState.running], executed := [],
      mainJoined := 0, mainReturned := false } 0 ⟨7, true⟩ [] rfl rfl rfl
  exact ⟨h.1, h.2.1, h.2.2.1, (h.2.2.2 _ Relation.ReflTransGen.refl).1⟩

/-- C9: the SIGINT handler invokes the registered shutdown callback exactly
once, and its final effect is terminating the process with exit status
`128 + SIGINT = 130`. -/
theorem c9_sigint_shutdown_once_then_exit :
    on_sigint.count SigEvent.invokeShutdownCallback = 1 ∧
    on_sigint.getLast? = some (SigEvent.processExit (128 + SIGINT)) ∧
    128 + SIGINT = 130 := by
  refine ⟨?_, rfl, rfl⟩
  decide

/-- C10: the response of `handle_connection` is determined solely by whether
the read bytes start with `"GET / HTTP/1.1\r\n"`: on a match the status line
is 200 with the contents of `hello.html` as body, otherwise 404 with the
contents of `404.html`, and in both cases the `Content-Length` value is the
byte length of the body. -/
theorem c10_response_depends_only_on_request_line
    (buffer : List UInt8) (files : String → String) :
    (get_req.isPrefixOf buffer = true →
      handle_connection buffer files =
        "HTTP/1.1 200 OK" ++ "\r\nContent-Length: " ++
          toString (files "hello.html").utf8ByteSize ++ "\r\n\r\n" ++ files "hello.html") ∧
    (get_req.isPrefixOf buffer = false →
      handle_connection buffer files =
        "HTTP/1.1 404 NOT FOUND" ++ "\r\nContent-Length: " ++
          toString (files "404.html").utf8ByteSize ++ "\r\n\r\n" ++ files "404.html") ∧
    (∀ buffer2, get_req.isPrefixOf buffer2 = get_req.isPrefixOf buffer →
      handle_connection buffer2 files = handle_connection buffer files) := by
  refine ⟨?_, ?_, ?_⟩
  · intro h
    simp [handle_connection, h]
  · intro h
    simp [handle_connection, h]
  · intro buffer2 h2
    cases hb : get_req.isPrefixOf buffer with
    | false => simp [handle_connection, hb, h2.trans hb]
    | true => simp [handle_connection, hb, h2.trans hb]

/-- Witness for C10: a buffer that is exactly the request line gets the 200
response, the empty buffer gets the 404 response, for a file map serving
`"ab"` for every name. -/
theorem c10_witness :
    handle_connection get_req (fun _ => "ab") =
      "HTTP/1.1 200 OK" ++ "\r\nContent-Length: " ++
        toString ("ab".utf8ByteSize) ++ "\r\n\r\n" ++ "ab" ∧
    handle_connection [] (fun _ => "ab") =
      "HTTP/1.1 404 NOT FOUND" ++ "\r\nContent-Length: " ++
        toString ("ab".utf8ByteSize) ++ "\r\n\r\n" ++ "ab" := by
  constructor
  · exact (c10_response_depends_only_on_request_line get_req (fun _ => "ab")).1 (by decide)
  · exact (c10_response_depends_only_on_request_line [] (fun _ => "ab")).2.1 (by decide)

/-- Witness for C7 at a concrete one-worker pool. -/
theorem c7_witness :
    ThreadPool.dropPool ⟨[Worker.new 0 0]⟩ = (⟨[Worker.new 0 0]⟩ : ThreadPool).shutdown :=
  (c7_drop_is_shutdown ⟨[Worker.new 0 0]⟩).1
